import Mathlib

/-!
Verification of the local-enrichment-tool company enrichment engine.

The definitions below are shallow embeddings of the TypeScript sources:
`src/lib/enrichment-engine.ts` (the orchestrator, the confidence formula, and
the LinkedIn headcount estimator sharing that file), `src/lib/tech-detector.ts`,
`src/lib/mobile-app-detector.ts` and the job scraper.  Network reads are
modelled as environment parameters holding the fetched payloads; JavaScript
number arithmetic on the integer counts kept below 10^6 by the sanity checks is
modelled with Nat (there Math.floor(n * 0.4), Math.floor(n * 5) and
Math.floor(n / 0.7) agree with the exact rational floors 2n/5, 5n and 10n/7),
and the confidence-weighted average of combineEstimates is modelled over the
rationals.  Fields holding JavaScript values that may be undefined are Options,
and the conditions the code writes as truthiness tests are modelled by the
truthiness helpers below.
-/

/-! ## Basic helpers -/

/-- JavaScript truthiness of an optional string: undefined and "" are falsy. -/
def trutS : Option String → Bool
  | some s => !s.isEmpty
  | none => false

/-- JavaScript truthiness of an optional number: undefined and 0 are falsy
(the counts in this code base are never negative). -/
def trutN : Option Nat → Bool
  | some n => n != 0
  | none => false

/-- `listStarts pat s`: `s` begins with `pat` (character-exact). -/
def listStarts : List Char → List Char → Bool
  | [], _ => true
  | _ :: _, [] => false
  | a :: as, b :: bs => a == b && listStarts as bs

/-- `listHas pat s`: `pat` occurs somewhere in `s`. -/
def listHas (pat : List Char) : List Char → Bool
  | [] => pat.isEmpty
  | c :: t => listStarts pat (c :: t) || listHas pat t

/-- JavaScript `hay.includes(sub)` (case-sensitive substring test). -/
def strIncl (hay sub : String) : Bool := listHas sub.data hay.data

/-- JavaScript `s.toLowerCase()` (ASCII), character by character. -/
def strLower (s : String) : String := String.mk (s.data.map Char.toLower)

/-- Split on a separator character, keeping empty segments (JavaScript
`s.split(sep)`; splitting the empty string yields one empty segment). -/
def splitOnChar (sep : Char) : List Char → List (List Char)
  | [] => [[]]
  | c :: t =>
    let r := splitOnChar sep t
    if c == sep then [] :: r
    else
      match r with
      | [] => [[c]]
      | h :: t2 => (c :: h) :: t2

/-- Join words with single spaces (JavaScript `arr.join(" ")`). -/
def joinWithSpace : List (List Char) → List Char
  | [] => []
  | [w] => w
  | w :: ws => w ++ ' ' :: joinWithSpace ws

/-- A sequence of conditional pushes: `pickList ps` keeps, in order, the
payload of every pair whose condition is true (`if (cond) list.push(x)`). -/
def pickList (ps : List (Bool × α)) : List α :=
  ps.foldr (fun p acc => if p.1 then p.2 :: acc else acc) []

/-! ## Headcount estimator (`linkedin-headcount.ts`, appended to
`src/lib/enrichment-engine.ts` in this snapshot) -/

/-- The confidence tiers of a `HeadcountEstimate`. -/
inductive ConfTier where
  | high
  | medium
  | low
deriving Repr, DecidableEq

/-- `HeadcountEstimate` (without the wall-clock `timestamp` field, which is
outside the model). -/
structure HeadcountEstimate where
  totalEmployees : Option Nat
  engineeringCount : Option Nat
  confidence : ConfTier
  source : String
deriving Repr, DecidableEq

/-- The fixed keyword list scanned by `estimateEngineeringCount`. -/
def engineeringKeywords : List String :=
  ["engineer", "software engineer", "engineering", "developer", "software developer"]

/-- The keyword loop of `estimateEngineeringCount`: the maximum of the public
people-search result counts, one per keyword.  `search` is the environment
function standing for `searchPeopleCount(company, keyword)`. -/
def maxSearchCount (search : String → Nat) : Nat :=
  engineeringKeywords.foldl (fun m k => if search k > m then search k else m) 0

/-- Core of `LinkedInHeadcountFetcher.estimateEngineeringCount` (lines 912-942
of `enrichment-engine.ts`), taking the already-computed maximum search count
and the total-employee count scraped from the profile page.
`Math.floor(t * 0.4)` is `(2*t)/5` and `Math.floor(t * 0.35)` is `(7*t)/20`
(exact for every `t` below the scraper sanity bound of 10^6 for the former;
the latter is exercised by the claims only at `t = 350`, where the double
computation also yields 122). -/
def estimateEngineeringCount (maxEngineerCount : Nat) (totalEmployees : Option Nat) :
    HeadcountEstimate :=
  let p : Nat × ConfTier :=
    if maxEngineerCount > 0 then
      -- confidence = maxEngineerCount > 10 ? 'medium' : 'low'
      let c := if maxEngineerCount > 10 then ConfTier.medium else ConfTier.low
      -- if (companyData.totalEmployees && maxEngineerCount > companyData.totalEmployees)
      match totalEmployees with
      | some t =>
        if t ≠ 0 ∧ maxEngineerCount > t then ((2 * t) / 5, ConfTier.low)
        else (maxEngineerCount, c)
      | none => (maxEngineerCount, c)
    else
      -- else if (companyData.totalEmployees): 35% fallback
      match totalEmployees with
      | some t => if t ≠ 0 then ((7 * t) / 20, ConfTier.low) else (0, ConfTier.low)
      | none => (0, ConfTier.low)
  { totalEmployees := totalEmployees
    engineeringCount := if p.1 > 0 then some p.1 else none
    confidence := p.2
    source := "linkedin_public_search" }

/-- `estimateFromJobPostings`: `Math.floor(n * 5)` behind a zero guard. -/
def estimateFromJobPostings (engineeringJobCount : Nat) : Nat :=
  if engineeringJobCount = 0 then 0 else 5 * engineeringJobCount

/-- `estimateFromGitHub`: `Math.floor(n / 0.7)` behind a zero guard,
which equals `10n/7` for every count below the sanity bounds. -/
def estimateFromGitHub (activeContributors : Nat) : Nat :=
  if activeContributors = 0 then 0 else (10 * activeContributors) / 7

/-- `combineEstimates`: the loop accumulating `weightedSum` and `totalWeight`
followed by `Math.floor(weightedSum / totalWeight)`; the empty list returns 0
before the loop. -/
def combineEstimates (estimates : List (ℚ × ℚ)) : ℤ :=
  if estimates.length = 0 then 0
  else
    let s := estimates.foldl (fun acc e => (acc.1 + e.1 * e.2, acc.2 + e.2)) (0, 0)
    ⌊s.1 / s.2⌋

/-! ## Profile-page employee-count parsing (`scrapeCompanyPage`) -/

/-- The ASCII part of the JavaScript `\s` class (space, tab, newline,
carriage return, vertical tab, form feed); the modelled inputs contain no
non-ASCII whitespace. -/
def isWsC (c : Char) : Bool :=
  c == ' ' || c == '\t' || c == '\n' || c == '\r' || c.toNat == 11 || c.toNat == 12

/-- Case-insensitive character equality (ASCII, via `Char.toLower`). -/
def lowEq (a b : Char) : Bool := a.toLower == b.toLower

/-- `startsCI pat s`: `s` begins with `pat` up to ASCII case (the `i` flag). -/
def startsCI : List Char → List Char → Bool
  | [], _ => true
  | _ :: _, [] => false
  | a :: as, b :: bs => lowEq a b && startsCI as bs

/-- Numeric value of a digit string (`parseInt` after comma stripping). -/
def natOfDigits (ds : List Char) : Nat :=
  ds.foldl (fun n c => 10 * n + (c.toNat - 48)) 0

/-- Greedy run of decimal digits and the remainder. -/
def spanDigits (cs : List Char) : List Char × List Char :=
  (cs.takeWhile Char.isDigit, cs.dropWhile Char.isDigit)

/-- Greedy run of whitespace and the remainder. -/
def spanWs (cs : List Char) : List Char × List Char :=
  (cs.takeWhile isWsC, cs.dropWhile isWsC)

/-- `\s+(?:employees|associates)` with the `i` flag: at least one whitespace
character, then one of the two unit words.  Whitespace and letters are
disjoint, so the greedy `\s+` needs no backtracking here. -/
def wsUnit (cs : List Char) : Bool :=
  let (ws, rest) := spanWs cs
  !ws.isEmpty && (startsCI "employees".data rest || startsCI "associates".data rest)

/-- All ways of consuming `(?:,\d{3})*`, greedy first: the pairs
(digits consumed with commas dropped, remainder), ordered from the most comma
groups down to none, as regex backtracking would try them. -/
def commaGroupSplits : List Char → List (List Char × List Char)
  | ',' :: a :: b :: c :: rest =>
    if a.isDigit && b.isDigit && c.isDigit then
      (commaGroupSplits rest).map (fun p => (a :: b :: c :: p.1, p.2)) ++
        [([], ',' :: a :: b :: c :: rest)]
    else [([], ',' :: a :: b :: c :: rest)]
  | cs => [([], cs)]

/-- Pattern 1 of `scrapeCompanyPage`,
`(\d{1,3}(?:,\d{3})*)\s+(?:employees|associates)` with the `i` flag, anchored
at the head of `cs`: the greedy `\d{1,3}` tries three digits, then two, then
one, and for each the comma groups backtrack from most to none. -/
def matchP1At (cs : List Char) : Option Nat :=
  let tryLen : Nat → Option Nat := fun len =>
    let ds := cs.take len
    if ds.length == len && ds.all Char.isDigit then
      ((commaGroupSplits (cs.drop len)).find? (fun p => wsUnit p.2)).map
        (fun p => natOfDigits (ds ++ p.1))
    else none
  (tryLen 3).orElse fun _ => (tryLen 2).orElse fun _ => tryLen 1

/-- Pattern 2, `(\d+)\s+(?:employees|associates)`, anchored: digits must be
followed by whitespace, so the greedy `\d+` is deterministic. -/
def matchP2At (cs : List Char) : Option Nat :=
  let (ds, rest) := spanDigits cs
  if !ds.isEmpty && wsUnit rest then some (natOfDigits ds) else none

/-- Pattern 3, `"followerCount"\s*:\s*(\d+)` with the `i` flag, anchored. -/
def matchP3At (cs : List Char) : Option Nat :=
  let lit := "\"followerCount\"".data
  if startsCI lit cs then
    match (spanWs (cs.drop lit.length)).2 with
    | ':' :: r2 =>
      let (ds, _) := spanDigits (spanWs r2).2
      if !ds.isEmpty then some (natOfDigits ds) else none
    | _ => none
  else none

/-- The range pattern, `(\d+)-(\d+)\s+(?:employees|associates)` with the `i`
flag, anchored. -/
def matchRangeAt (cs : List Char) : Option (Nat × Nat) :=
  let (d1, r1) := spanDigits cs
  if d1.isEmpty then none
  else
    match r1 with
    | '-' :: r2 =>
      let (d2, r3) := spanDigits r2
      if !d2.isEmpty && wsUnit r3 then some (natOfDigits d1, natOfDigits d2) else none
    | _ => none

/-- Leftmost-match search: try the anchored matcher at each position from the
left (JavaScript `String.match` with a non-global pattern). -/
def scanFor (m : List Char → Option α) : List Char → Option α
  | [] => none
  | c :: t => (m (c :: t)).orElse fun _ => scanFor m t

/-- The parsing body of `scrapeCompanyPage` after a successful fetch: the
three count patterns in order, each returning only if its count passes the
sanity check `0 < count < 1000000` (a match failing the check falls through
to the next pattern), then the range pattern with the midpoint
`Math.floor((min + max) / 2)` — that branch has no sanity check. -/
def parseEmployeeCount (html : String) : Option Nat :=
  let cs := html.data
  let sane : Nat → Option Nat := fun n => if 0 < n ∧ n < 1000000 then some n else none
  match [matchP1At, matchP2At, matchP3At].findSome? (fun m => (scanFor m cs).bind sane) with
  | some n => some n
  | none => (scanFor matchRangeAt cs).map (fun p => (p.1 + p.2) / 2)

/-- `scrapeCompanyPage`: a failed or non-OK fetch yields no count
(`fetchedHtml = none`), otherwise the fetched page text is parsed. -/
def scrapeCompanyPage (fetchedHtml : Option String) : Option Nat :=
  fetchedHtml.bind parseEmployeeCount

/-! ## Technographic detector (`src/lib/tech-detector.ts`) -/

/-- One detected technology (`TechStack` in the source). -/
structure TechStack where
  name : String
  category : String
  confidence : Nat
deriving Repr, DecidableEq

/-- The result shape of `detectTechStack`. -/
structure TechnographicData where
  frontendFrameworks : List TechStack
  backendFrameworks : List TechStack
  databases : List TechStack
  cloudProviders : List TechStack
  analyticsTools : List TechStack
  observabilityStack : List TechStack
  marketingTools : List TechStack
  paymentProcessors : List TechStack
  customerSupport : List TechStack
  cdnProviders : List TechStack
  authProviders : List TechStack
  apiServices : List TechStack
  allTechnologies : List TechStack
deriving Repr, DecidableEq

/-- A quote character (double or single; 39 is the single quote). -/
def isQuoteC (c : Char) : Bool := c == '"' || c.toNat == 39

/-- The suffixes inside a script tag, before the closing `>`, that begin with
`src=` (case-insensitively): the candidate positions for the `src` attribute
of `/<script[^>]*src=["']([^"']+)["']/gi`. -/
def srcCandidates : List Char → List (List Char)
  | [] => []
  | c :: t =>
    if c == '>' then []
    else (if startsCI "src=".data (c :: t) then [c :: t] else []) ++ srcCandidates t

/-- Parse `src=` followed by a quoted non-empty value (the value may not
contain a quote of either kind); returns the value and the rest of the input
after the closing quote. -/
def parseSrcValue (s : List Char) : Option (String × List Char) :=
  match s.drop 4 with
  | q :: rest =>
    if isQuoteC q then
      let v := rest.takeWhile (fun c => !isQuoteC c)
      match rest.dropWhile (fun c => !isQuoteC c) with
      | _ :: rest2 => if !v.isEmpty then some (String.mk v, rest2) else none
      | [] => none
    else none
  | [] => none

/-- The global scan of `extractScriptSources`: at each `<script` the greedy
`[^>]*` backtracks to the latest `src=` inside the tag that completes a
match, and the scan resumes after the captured value.  Fuel is the input
length, which bounds the number of steps. -/
def goScript : Nat → List Char → List String
  | 0, _ => []
  | _ + 1, [] => []
  | fuel + 1, c :: t =>
    if startsCI "<script".data (c :: t) then
      match (srcCandidates ((c :: t).drop 7)).reverse.findSome? parseSrcValue with
      | some (v, rest) => strLower v :: goScript fuel rest
      | none => goScript fuel t
    else goScript fuel t

/-- `extractScriptSources`: every captured `src` value, lowercased. -/
def extractScriptSources (html : String) : List String :=
  goScript (html.length + 1) html.data

/-- The ordered signature catalog of `detectTechStack`: one entry per source
`if`-block, pairing the block's condition with the `TechStack` it pushes.
`h` is `html.includes`, `s` tests every extracted script source. -/
def techSignatures (h s : String → Bool) (server poweredBy : Option String) :
    List (Bool × TechStack) :=
  [ (h "react" || h "_react" || h "React" || s "react",
      TechStack.mk "React" "Frontend Framework" 90),
    (h "vue" || h "Vue.js" || s "vue", TechStack.mk "Vue.js" "Frontend Framework" 90),
    (h "angular" || h "ng-" || s "angular", TechStack.mk "Angular" "Frontend Framework" 90),
    (h "svelte" || s "svelte", TechStack.mk "Svelte" "Frontend Framework" 85),
    (h "next.js" || h "_next" || s "_next", TechStack.mk "Next.js" "Frontend Framework" 95),
    (h "webpack" || s "webpack", TechStack.mk "Webpack" "Build Tool" 80),
    (h "vite" || s "vite", TechStack.mk "Vite" "Build Tool" 80),
    (h "google-analytics" || h "gtag" || h "ga.js" || s "googletagmanager" || s "google-analytics",
      TechStack.mk "Google Analytics" "Analytics" 95),
    (h "segment.com" || h "analytics.js" || s "segment.com" || s "segment.io",
      TechStack.mk "Segment" "Analytics" 95),
    (h "mixpanel" || s "mixpanel", TechStack.mk "Mixpanel" "Analytics" 90),
    (h "amplitude" || s "amplitude", TechStack.mk "Amplitude" "Analytics" 90),
    (h "plausible" || s "plausible", TechStack.mk "Plausible" "Analytics" 90),
    (s "posthog", TechStack.mk "PostHog" "Analytics" 90),
    (h "sentry" || h "sentry.io" || s "sentry" || h "Sentry.init" || h "Sentry.captureException",
      TechStack.mk "Sentry" "Observability" 95),
    (h "datadog" || s "datadog" || h "DD_RUM" || h "datadoghq" || s "datadoghq-browser" || h "datadoghq.com/browser" || h "DD_LOGS",
      TechStack.mk "Datadog" "Observability" 95),
    (h "newrelic" || h "nr-data" || s "newrelic" || h "NREUM" || h "bam.nr-data.net" || s "js-agent.newrelic.com" || h "window.NREUM",
      TechStack.mk "New Relic" "Observability" 95),
    (h "logrocket" || s "logrocket" || h "LogRocket.init" || h "cdn.logrocket.com",
      TechStack.mk "LogRocket" "Observability" 90),
    (s "fullstory" || h "fullstory.com" || h "_fs_", TechStack.mk "FullStory" "Observability" 90),
    (h "appdynamics" || s "appdynamics" || h "adrum" || s "adrum.js",
      TechStack.mk "AppDynamics" "Observability" 90),
    (h "dynatrace" || s "dynatrace" || h "ruxitagentjs" || s "bf.dynatrace.com",
      TechStack.mk "Dynatrace" "Observability" 90),
    (h "splunk" || s "splunk" || s "splunkrum", TechStack.mk "Splunk RUM" "Observability" 85),
    (h "elastic-apm" || s "elastic-apm" || h "@elastic/apm-rum",
      TechStack.mk "Elastic APM" "Observability" 90),
    (h "raygun" || s "raygun" || h "rg4js", TechStack.mk "Raygun" "Observability" 85),
    (h "bugsnag" || s "bugsnag" || h "Bugsnag.start", TechStack.mk "Bugsnag" "Observability" 90),
    (h "rollbar" || s "rollbar" || h "Rollbar.init", TechStack.mk "Rollbar" "Observability" 90),
    (h "honeybadger" || s "honeybadger", TechStack.mk "Honeybadger" "Observability" 85),
    (h "airbrake" || s "airbrake", TechStack.mk "Airbrake" "Observability" 85),
    (h "highlight.io" || s "highlight.io" || h "H.init",
      TechStack.mk "Highlight.io" "Observability" 90),
    (h "opentelemetry" || h "@opentelemetry" || s "opentelemetry",
      TechStack.mk "OpenTelemetry" "Observability" 85),
    (h "prometheus" || s "prometheus", TechStack.mk "Prometheus" "Observability" 80),
    (h "@grafana/faro" || s "grafana-faro", TechStack.mk "Grafana Faro" "Observability" 85),
    (h "instana" || s "instana" || h "ineum", TechStack.mk "Instana" "Observability" 85),
    (h "honeycomb.io" || s "honeycomb", TechStack.mk "Honeycomb" "Observability" 85),
    (h "lightstep" || s "lightstep", TechStack.mk "Lightstep" "Observability" 85),
    (h "atatus" || s "atatus", TechStack.mk "Atatus" "Observability" 80),
    (h "scoutapm" || s "scoutapm", TechStack.mk "Scout APM" "Observability" 80),
    (h "betterstack" || s "betterstack" || h "logtail",
      TechStack.mk "Better Stack" "Observability" 85),
    (h "checklyhq" || s "checkly", TechStack.mk "Checkly" "Observability" 80),
    (h "stripe" || s "stripe.com", TechStack.mk "Stripe" "Payment Processor" 95),
    (s "paypal.com", TechStack.mk "PayPal" "Payment Processor" 95),
    (s "braintree", TechStack.mk "Braintree" "Payment Processor" 90),
    (s "square", TechStack.mk "Square" "Payment Processor" 90),
    (h "intercom" || s "intercom", TechStack.mk "Intercom" "Customer Support" 95),
    (h "zendesk" || s "zendesk", TechStack.mk "Zendesk" "Customer Support" 90),
    (s "helpscout", TechStack.mk "Help Scout" "Customer Support" 90),
    (s "crisp.chat", TechStack.mk "Crisp" "Customer Support" 90),
    (s "tawk.to", TechStack.mk "Tawk.to" "Customer Support" 90),
    (h "hubspot" || s "hubspot", TechStack.mk "HubSpot" "Marketing" 90),
    (h "drift" || s "drift", TechStack.mk "Drift" "Marketing" 90),
    (s "pardot", TechStack.mk "Pardot" "Marketing" 90),
    (s "marketo", TechStack.mk "Marketo" "Marketing" 90),
    (s "optimizely", TechStack.mk "Optimizely" "Marketing" 85),
    (s "auth0", TechStack.mk "Auth0" "Authentication" 95),
    (s "okta", TechStack.mk "Okta" "Authentication" 95),
    (h "firebase" || s "firebase", TechStack.mk "Firebase" "Authentication" 90),
    (s "clerk.dev" || s "clerk.com", TechStack.mk "Clerk" "Authentication" 95),
    (h "cloudfront.net" || s "cloudfront.net", TechStack.mk "CloudFront" "CDN" 90),
    (s "cloudflare", TechStack.mk "Cloudflare" "CDN" 90),
    (s "fastly", TechStack.mk "Fastly" "CDN" 90),
    (h "cloudfront.net" || h "amazonaws.com", TechStack.mk "AWS" "Cloud Provider" 85),
    (h "storage.googleapis.com" || h "gcp", TechStack.mk "Google Cloud" "Cloud Provider" 85),
    (h "azure" || h "azurewebsites", TechStack.mk "Azure" "Cloud Provider" 85),
    (h "vercel" || h "vercel.app", TechStack.mk "Vercel" "Cloud Provider" 95),
    (h "netlify", TechStack.mk "Netlify" "Cloud Provider" 95),
    (server.any (fun v => strIncl v "nginx"), TechStack.mk "Nginx" "Web Server" 95),
    (poweredBy.any (fun v => strIncl v "Express"), TechStack.mk "Express.js" "Backend Framework" 90),
    (poweredBy.any (fun v => strIncl v "Next.js"), TechStack.mk "Next.js" "Frontend Framework" 95) ]

/-- `detectTechStack`.  `server` and `poweredBy` model the `Server` and
`X-Powered-By` headers of the HEAD probe; `none` covers an absent header and
a failed fetch alike.  Folding the signature catalog in order reproduces the
source's sequence of conditional `detected.push` calls. -/
def detectTechStack (html : String) (server poweredBy : Option String) :
    TechnographicData :=
  let scriptSrcs := extractScriptSources html
  let h : String → Bool := fun sub => strIncl html sub
  let s : String → Bool := fun sub => scriptSrcs.any (fun src => strIncl src sub)
  let detected : List TechStack := pickList (techSignatures h s server poweredBy)
  { frontendFrameworks := detected.filter (fun t => t.category == "Frontend Framework")
    backendFrameworks := detected.filter (fun t => t.category == "Backend Framework")
    databases := detected.filter (fun t => t.category == "Database")
    cloudProviders := detected.filter (fun t => t.category == "Cloud Provider")
    analyticsTools := detected.filter (fun t => t.category == "Analytics")
    observabilityStack := detected.filter (fun t => t.category == "Observability")
    marketingTools := detected.filter (fun t => t.category == "Marketing")
    paymentProcessors := detected.filter (fun t => t.category == "Payment Processor")
    customerSupport := detected.filter (fun t => t.category == "Customer Support")
    cdnProviders := detected.filter (fun t => t.category == "CDN")
    authProviders := detected.filter (fun t => t.category == "Authentication")
    apiServices := detected.filter (fun t => t.category == "API Service")
    allTechnologies := detected }
structure JobPosting where
  title : String
  department : String
  location : String
  remote : Bool
  url : String
  requiredSkills : List String
  description : String
deriving Repr, DecidableEq

/-- The fixed department buckets of `HiringData.departmentHiring`. -/
structure DepartmentHiring where
  engineering : Nat
  sales : Nat
  marketing : Nat
  customerSuccess : Nat
  operations : Nat
  other : Nat
deriving Repr, DecidableEq

/-- `HiringData` (without the optional `hiringVelocity`, never produced). -/
structure HiringData where
  openPositions : Nat
  jobListings : List JobPosting
  departmentHiring : DepartmentHiring
  topSkillsHiring : List String
deriving Repr, DecidableEq

/-- Increment the count of `k` in an insertion-ordered tally (JavaScript
`Map.set(k, (m.get(k) || 0) + 1)`: an existing key keeps its position, a new
key is appended; `Array.from(m.entries())` later returns insertion order). -/
def bumpTally (m : List (String × Nat)) (k : String) : List (String × Nat) :=
  if m.any (fun p => p.1 == k) then
    m.map (fun p => if p.1 == k then (p.1, p.2 + 1) else p)
  else m ++ [(k, 1)]

/-- Stable insertion of `x` into a list already sorted by descending count:
`x` passes over strictly larger counts and lands in front of the first entry
whose count is not larger.  Folding this over a list reproduces JavaScript
stable `sort((a, b) => b[1] - a[1])`: descending by count, earlier entries
first on ties. -/
def insertDesc (x : String × Nat) : List (String × Nat) → List (String × Nat)
  | [] => [x]
  | y :: ys => if x.2 < y.2 then y :: insertDesc x ys else x :: y :: ys

/-- Stable sort by descending count. -/
def sortDescBySnd (l : List (String × Nat)) : List (String × Nat) :=
  l.foldr insertDesc []

/-- The skill vocabulary of `extractTopSkills`, in catalog order. -/
def techSkillsCatalog : List String :=
  ["React", "Vue", "Angular", "Node.js", "Python", "Go", "Rust", "TypeScript",
   "JavaScript", "Java", "Kubernetes", "Docker", "AWS", "GCP", "Azure",
   "PostgreSQL", "MongoDB", "Redis", "GraphQL", "REST API", "Microservices",
   "Machine Learning", "AI", "Data Science", "SQL", "NoSQL", "CI/CD",
   "Git", "Agile", "Scrum", "TensorFlow", "PyTorch", "Spark", "Kafka"]

/-- The tally loop of `extractTopSkills`: postings scanned in order, each
posting scanning the catalog in order against its lowercased
title-plus-description. -/
def tallySkills (jobs : List JobPosting) : List (String × Nat) :=
  jobs.foldl (fun m j =>
    let text := strLower (j.title ++ " " ++ j.description)
    techSkillsCatalog.foldl (fun m2 skill =>
      if strIncl text (strLower skill) then bumpTally m2 skill else m2) m) []

/-- `extractTopSkills`: sort the tally by count descending (stable) and keep
the first ten names. -/
def extractTopSkills (jobs : List JobPosting) : List String :=
  ((sortDescBySnd (tallySkills jobs)).take 10).map Prod.fst

/-- The department-classification chain of `scrapeJobs`: first match wins,
substring tests on the lowercased department string. -/
def classifyInto (dh : DepartmentHiring) (department : String) : DepartmentHiring :=
  let dept := strLower department
  if strIncl dept "engineer" || strIncl dept "technical" || strIncl dept "developer" then
    { dh with engineering := dh.engineering + 1 }
  else if strIncl dept "sales" || strIncl dept "account" then
    { dh with sales := dh.sales + 1 }
  else if strIncl dept "marketing" || strIncl dept "growth" then
    { dh with marketing := dh.marketing + 1 }
  else if strIncl dept "customer" || strIncl dept "support" || strIncl dept "success" then
    { dh with customerSuccess := dh.customerSuccess + 1 }
  else if strIncl dept "operations" || strIncl dept "ops" || strIncl dept "finance" then
    { dh with operations := dh.operations + 1 }
  else { dh with other := dh.other + 1 }

/-- `scrapeJobs` after the four concurrent probes settled
(`Promise.allSettled`): each probe either failed (`none`) or produced a list
of postings; non-empty fulfilled results are concatenated in probe order,
then bucketed by department and scanned for top skills. -/
def scrapeJobs (probes : List (Option (List JobPosting))) : HiringData :=
  let jobListings := probes.foldl (fun acc r =>
    match r with
    | some l => if l.length > 0 then acc ++ l else acc
    | none => acc) []
  { openPositions := jobListings.length
    jobListings := jobListings
    departmentHiring :=
      jobListings.foldl (fun dh j => classifyInto dh j.department) ⟨0, 0, 0, 0, 0, 0⟩
    topSkillsHiring := extractTopSkills jobListings }

/-- The vocabulary of `TechDetector.detectFromJobPostings`. -/
def jobTechCatalog : List String :=
  ["TypeScript", "JavaScript", "Python", "Go", "Rust", "Java", "C++", "Ruby",
   "PHP", "Swift", "Kotlin",
   "React", "Vue", "Angular", "Svelte", "Next.js", "Nuxt", "Remix",
   "Node.js", "Express", "Django", "Flask", "FastAPI", "Rails", "Spring Boot",
   "ASP.NET",
   "PostgreSQL", "MySQL", "MongoDB", "Redis", "Elasticsearch", "DynamoDB",
   "Cassandra",
   "AWS", "GCP", "Azure", "Kubernetes", "Docker", "Terraform",
   "Spark", "Kafka", "Airflow", "Snowflake", "BigQuery", "Redshift",
   "TensorFlow", "PyTorch", "scikit-learn", "Pandas", "NumPy",
   "Datadog", "New Relic", "Sentry", "Grafana", "Prometheus"]

/-- `detectFromJobPostings`: tally vocabulary mentions over the lowercased
descriptions, keep technologies mentioned in at least
`min(2, descriptionCount)` postings, sort by mention count (stable,
descending) and return the names. -/
def detectFromJobPostings (jobDescriptions : List String) : List String :=
  let tally := jobDescriptions.foldl (fun m d =>
    let lower := strLower d
    jobTechCatalog.foldl (fun m2 tech =>
      if strIncl lower (strLower tech) then bumpTally m2 tech else m2) m) []
  ((sortDescBySnd (tally.filter (fun p => p.2 ≥ min 2 jobDescriptions.length))).map
    Prod.fst)

/-! ## Mobile app detector (`src/lib/mobile-app-detector.ts`) -/

/-- The two app platforms. -/
inductive AppPlatform where
  | ios
  | android
deriving Repr, DecidableEq

/-- `MobileApp` (without the optional `developer`, never produced). -/
structure MobileApp where
  platform : AppPlatform
  appName : String
  appId : Option String
  appUrl : String
  detectionMethod : String
deriving Repr, DecidableEq

/-- `MobileAppData` (without the wall-clock `detectedAt`). -/
structure MobileAppData where
  hasIosApp : Bool
  hasAndroidApp : Bool
  iosApps : List MobileApp
  androidApps : List MobileApp
  allApps : List MobileApp
deriving Repr, DecidableEq

/-- `capitalizeWords`: capitalize the first letter of each space-separated
word and lowercase the rest. -/
def capitalizeWords (s : String) : String :=
  String.mk (joinWithSpace ((splitOnChar ' ' s.data).map (fun w =>
    match w with
    | [] => []
    | c :: t => c.toUpper :: t.map Char.toLower)))

/-- The camel-case split `replace(/([a-z])([A-Z])/g, "$1 $2")`: a space is
inserted between each adjacent lowercase-uppercase pair (an uppercase letter
cannot start the next match, so the global replace does exactly this). -/
def camelSplit : List Char → List Char
  | a :: b :: t =>
    if a.isLower && b.isUpper then a :: ' ' :: camelSplit (b :: t)
    else a :: camelSplit (b :: t)
  | x => x

/-- `extractAppNameFromPackage`: last dot-separated component of the package
id, camel-split and capitalized. -/
def extractAppNameFromPackage (packageId : String) : String :=
  let parts := splitOnChar '.' packageId.data
  capitalizeWords (String.mk (camelSplit (parts.getLastD [])))

/-- Eat a case-insensitive literal. -/
def eatCI (lit : String) (s : List Char) : Option (List Char) :=
  if startsCI lit.data s then some (s.drop lit.data.length) else none

/-- A generic global-regex scan (`while ((match = re.exec(html)) !== null)`):
try the anchored matcher at each position from the left; after a match,
resume right after it.  Fuel bounds the number of steps by the input
length. -/
def scanG (m : List Char → Option (α × List Char)) : Nat → List Char → List α
  | 0, _ => []
  | _ + 1, [] => []
  | fuel + 1, c :: t =>
    match m (c :: t) with
    | some (a, rest) => a :: scanG m fuel rest
    | none => scanG m fuel t

/-- Run a global scan over a string. -/
def runScan (m : List Char → Option (α × List Char)) (html : String) : List α :=
  scanG m (html.length + 1) html.data

/-- A character allowed in the app-name segment `[^\/\s"']+`. -/
def appNameChar (c : Char) : Bool := !(c == '/' || isWsC c || isQuoteC c)

/-- Anchored matcher for the two Apple store URL patterns
`https?:\/\/HOST\/[a-z]{2}\/app\/([^\/\s"']+)\/id(\d+)` with the `i` flag
(`HOST` is `apps.apple.com` or `itunes.apple.com`); every quantified piece is
followed by a disjoint delimiter, so the greedy run needs no backtracking.
The produced entry carries the matched URL text verbatim, the dash-to-space
capitalized app name and the numeric id. -/
def matchAppleAt (host method : String) (cs : List Char) : Option (MobileApp × List Char) :=
  let scheme : Option Nat :=
    if startsCI "https://".data cs then some 8
    else if startsCI "http://".data cs then some 7
    else none
  match scheme with
  | none => none
  | some sl =>
    match eatCI host (cs.drop sl) with
    | none => none
    | some r1 =>
      match r1 with
      | a :: b :: r2 =>
        if a.isAlpha && b.isAlpha then
          match eatCI "/app/" r2 with
          | none => none
          | some r3 =>
            let name := r3.takeWhile appNameChar
            if name.isEmpty then none
            else
              match eatCI "/id" (r3.dropWhile appNameChar) with
              | none => none
              | some r5 =>
                let ds := r5.takeWhile Char.isDigit
                if ds.isEmpty then none
                else
                  let consumed := sl + host.length + 2 + 5 + name.length + 3 + ds.length
                  some ({ platform := AppPlatform.ios
                          appName := capitalizeWords
                            (String.mk (name.map (fun c => if c == '-' then ' ' else c)))
                          appId := some (String.mk ds)
                          appUrl := String.mk (cs.take consumed)
                          detectionMethod := method },
                        r5.dropWhile Char.isDigit)
        else none
      | _ => none

/-- `detectAppStoreLinks`: the `apps.apple.com` scan, then the
`itunes.apple.com` scan. -/
def detectAppStoreLinks (html : String) : List MobileApp :=
  runScan (matchAppleAt "apps.apple.com/" "App Store URL") html ++
    runScan (matchAppleAt "itunes.apple.com/" "iTunes URL") html

/-- A character allowed in a package id, `[a-zA-Z0-9._]`. -/
def pkgChar (c : Char) : Bool := c.isAlphanum || c == '.' || c == '_'

/-- Anchored matcher for
`https?:\/\/play\.google\.com\/store\/apps\/details\?id=([a-zA-Z0-9._]+)`
with the `i` flag. -/
def matchPlayAt (cs : List Char) : Option (MobileApp × List Char) :=
  let host := "play.google.com/store/apps/details?id="
  let scheme : Option Nat :=
    if startsCI "https://".data cs then some 8
    else if startsCI "http://".data cs then some 7
    else none
  match scheme with
  | none => none
  | some sl =>
    match eatCI host (cs.drop sl) with
    | none => none
    | some r1 =>
      let pkg := r1.takeWhile pkgChar
      if pkg.isEmpty then none
      else
        let pkgStr := String.mk pkg
        some ({ platform := AppPlatform.android
                appName := extractAppNameFromPackage pkgStr
                appId := some pkgStr
                appUrl := String.mk (cs.take (sl + host.length + pkg.length))
                detectionMethod := "Google Play URL" },
              r1.dropWhile pkgChar)

/-- `detectPlayStoreLinks`. -/
def detectPlayStoreLinks (html : String) : List MobileApp :=
  runScan matchPlayAt html

/-- Find the first suffix inside the current tag (stopping at `>`) on which
`f` succeeds — the `[^>]*` segment of the meta-tag patterns.  (The source
regex would backtrack to the last viable position; the two coincide on tags
that mention each attribute once, which is the only form the claims and the
modelled pages exercise.) -/
def findInTag (f : List Char → Option α) : List Char → Option α
  | [] => none
  | c :: t => if c == '>' then none else (f (c :: t)).orElse fun _ => findInTag f t

/-- Eat `ATTR["']VALUE["']` case-insensitively (each quote is independently
double or single, as in `["']`). -/
def eatAttrQuoted (attr value : String) (s : List Char) : Option (List Char) :=
  match eatCI attr s with
  | none => none
  | some r1 =>
    match r1 with
    | q :: r2 =>
      if isQuoteC q then
        match eatCI value r2 with
        | none => none
        | some r3 =>
          match r3 with
          | q2 :: r4 => if isQuoteC q2 then some r4 else none
          | [] => none
      else none
    | [] => none

/-- Anchored matcher for a `<meta` tag pattern: the key attribute somewhere
in the tag, then the capturing attribute after it, both before the
closing `>`. -/
def matchMetaAt (key keyVal : String) (capture : List Char → Option (α × List Char))
    (cs : List Char) : Option (α × List Char) :=
  match eatCI "<meta" cs with
  | none => none
  | some r1 =>
    match findInTag (eatAttrQuoted key keyVal) r1 with
    | none => none
    | some r2 => findInTag capture r2

/-- Capture `content=["']app-id=(\d+)`. -/
def capContentAppId (s : List Char) : Option (String × List Char) :=
  match eatCI "content=" s with
  | none => none
  | some r1 =>
    match r1 with
    | q :: r2 =>
      if isQuoteC q then
        match eatCI "app-id=" r2 with
        | none => none
        | some r3 =>
          let ds := r3.takeWhile Char.isDigit
          if ds.isEmpty then none
          else some (String.mk ds, r3.dropWhile Char.isDigit)
      else none
    | [] => none

/-- Capture `content=["'](\d+)`. -/
def capContentDigits (s : List Char) : Option (String × List Char) :=
  match eatCI "content=" s with
  | none => none
  | some r1 =>
    match r1 with
    | q :: r2 =>
      if isQuoteC q then
        let ds := r2.takeWhile Char.isDigit
        if ds.isEmpty then none
        else some (String.mk ds, r2.dropWhile Char.isDigit)
      else none
    | [] => none

/-- Capture `content=["']([^"']+)` (no closing quote is required by the
source patterns that use this form). -/
def capContentNonQuote (s : List Char) : Option (String × List Char) :=
  match eatCI "content=" s with
  | none => none
  | some r1 =>
    match r1 with
    | q :: r2 =>
      if isQuoteC q then
        let v := r2.takeWhile (fun c => !isQuoteC c)
        if v.isEmpty then none
        else some (String.mk v, r2.dropWhile (fun c => !isQuoteC c))
      else none
    | [] => none

/-- Capture `content=["']app-id=([^"']+)`. -/
def capContentAppIdNonQuote (s : List Char) : Option (String × List Char) :=
  match eatCI "content=" s with
  | none => none
  | some r1 =>
    match r1 with
    | q :: r2 =>
      if isQuoteC q then
        match eatCI "app-id=" r2 with
        | none => none
        | some r3 =>
          let v := r3.takeWhile (fun c => !isQuoteC c)
          if v.isEmpty then none
          else some (String.mk v, r3.dropWhile (fun c => !isQuoteC c))
      else none
    | [] => none

/-- `detectSmartBanners`: the four meta-tag scans, in source order. -/
def detectSmartBanners (html : String) : List MobileApp :=
  ((runScan (matchMetaAt "name=" "apple-itunes-app" capContentAppId) html).map
    (fun id => { platform := AppPlatform.ios
                 appName := "Mobile App"
                 appId := some id
                 appUrl := "https://apps.apple.com/app/id" ++ id
                 detectionMethod := "iOS Smart Banner" })) ++
  ((runScan (matchMetaAt "property=" "al:ios:app_store_id" capContentDigits) html).map
    (fun id => { platform := AppPlatform.ios
                 appName := "iOS App"
                 appId := some id
                 appUrl := "https://apps.apple.com/app/id" ++ id
                 detectionMethod := "iOS App Links Meta" })) ++
  ((runScan (matchMetaAt "property=" "al:android:package" capContentNonQuote) html).map
    (fun pkg => { platform := AppPlatform.android
                  appName := extractAppNameFromPackage pkg
                  appId := some pkg
                  appUrl := "https://play.google.com/store/apps/details?id=" ++ pkg
                  detectionMethod := "Android App Links Meta" })) ++
  ((runScan (matchMetaAt "name=" "google-play-app" capContentAppIdNonQuote) html).map
    (fun pkg => { platform := AppPlatform.android
                  appName := extractAppNameFromPackage pkg
                  appId := some pkg
                  appUrl := "https://play.google.com/store/apps/details?id=" ++ pkg
                  detectionMethod := "Google Play Meta Tag" }))

/-- Capture `app-argument=([^"']+)`. -/
def capAppArgument (s : List Char) : Option (String × List Char) :=
  match eatCI "app-argument=" s with
  | none => none
  | some r1 =>
    let v := r1.takeWhile (fun c => !isQuoteC c)
    if v.isEmpty then none
    else some (String.mk v, r1.dropWhile (fun c => !isQuoteC c))

/-- A character allowed in the intent host segment `[^\/\s"']+`. -/
def intentChar (c : Char) : Bool := !(c == '/' || isWsC c || isQuoteC c)

/-- Anchored matcher for `intent:\/\/([^\/\s"']+)` with the `i` flag;
`match[0]` is the matched text verbatim. -/
def matchIntentAt (cs : List Char) : Option (MobileApp × List Char) :=
  match eatCI "intent://" cs with
  | none => none
  | some r1 =>
    let v := r1.takeWhile intentChar
    if v.isEmpty then none
    else
      some ({ platform := AppPlatform.android
              appName := "Mobile App"
              appId := none
              appUrl := String.mk (cs.take (9 + v.length))
              detectionMethod := "Android Intent URL" },
            r1.dropWhile intentChar)

/-- `detectDeepLinks`: the single (non-looped) `app-argument` probe, gated on
an `apple-touch-icon` mention, then the global intent-URL scan.  The `domain`
parameter is unused, as in the source. -/
def detectDeepLinks (html : String) (_domain : String) : List MobileApp :=
  (if strIncl html "apple-touch-icon" then
    match scanFor (fun cs =>
        (matchMetaAt "name=" "apple-itunes-app" capAppArgument cs).map Prod.fst)
        html.data with
    | some arg =>
      [{ platform := AppPlatform.ios
         appName := "Mobile App"
         appId := none
         appUrl := arg
         detectionMethod := "Universal Links" }]
    | none => []
  else []) ++
  runScan matchIntentAt html

/-- `detectAppPatterns`: its phrase tests never materialize an entry. -/
def detectAppPatterns (_html : String) : List MobileApp := []

/-- The platform tag used in the deduplication key string. -/
def platformTag : AppPlatform → String
  | AppPlatform.ios => "ios"
  | AppPlatform.android => "android"

/-- The deduplication key string of `deduplicateApps`:
`platform + "-" + (appId || appUrl)` (JavaScript truthiness on `appId`). -/
def appKeyStr (app : MobileApp) : String :=
  platformTag app.platform ++ "-" ++
    (if trutS app.appId then app.appId.getD "" else app.appUrl)

/-- The loop of `deduplicateApps`, with `seen` accumulating key strings. -/
def dedupeGo (seen : List String) : List MobileApp → List MobileApp
  | [] => []
  | a :: as =>
    if seen.contains (appKeyStr a) then dedupeGo seen as
    else a :: dedupeGo (appKeyStr a :: seen) as

/-- `deduplicateApps`: keep the first occurrence of each key. -/
def deduplicateApps (apps : List MobileApp) : List MobileApp := dedupeGo [] apps

/-- The concatenation of the five extraction passes, in source order. -/
def allPassApps (html : String) (domain : String) : List MobileApp :=
  detectAppStoreLinks html ++ detectPlayStoreLinks html ++
    detectSmartBanners html ++ detectDeepLinks html domain ++
    detectAppPatterns html

/-- `detectMobileApps`: the five passes, concatenated in source order,
deduplicated, split into platform buckets and flagged. -/
def detectMobileApps (html : String) (domain : String) : MobileAppData :=
  let uniqueApps := deduplicateApps (allPassApps html domain)
  let iosAppsList := uniqueApps.filter (fun a => a.platform == AppPlatform.ios)
  let androidAppsList := uniqueApps.filter (fun a => a.platform == AppPlatform.android)
  { hasIosApp := iosAppsList.length > 0
    hasAndroidApp := androidAppsList.length > 0
    iosApps := iosAppsList
    androidApps := androidAppsList
    allApps := uniqueApps }

/-! ## Enrichment orchestrator (`src/lib/enrichment-engine.ts`) -/

/-- The verified social links produced by `extractSocialLinks` (its network
verification makes it an environment input to the orchestrator model). -/
structure SocialLinks where
  twitter : Option String
  linkedin : Option String
  github : Option String
deriving Repr, DecidableEq

/-- `recentActivity` of the GitHub fetcher result. -/
structure GitHubActivity where
  commitsLast30Days : Nat
  contributorsLast30Days : Nat
deriving Repr, DecidableEq

/-- The organization part of the GitHub fetcher result. -/
structure GitHubOrgInfo where
  url : String
  publicRepos : Nat
deriving Repr, DecidableEq

/-- The GitHub fetcher result (`fetchOrgData`), trimmed to the fields the
orchestrator reads. -/
structure GitHubData where
  organization : Option GitHubOrgInfo
  totalStars : Nat
  totalForks : Nat
  recentActivity : Option GitHubActivity
deriving Repr, DecidableEq

/-- Headquarters object of the structuring-call schema. -/
structure Headquarters where
  city : Option String
  state : Option String
  country : Option String
deriving Repr, DecidableEq

/-- The structuring-call (`generateObject`) result, trimmed to the fields the
orchestrator reads when assembling the record and the confidence score. -/
structure AIObject where
  name : String
  domain : String
  description : String
  founded : Option Nat
  employeeCount : Option Nat
  headquarters : Headquarters
  totalFundingRaised : Option String
  latestRoundType : Option String
  latestRoundAmount : Option String
  ceoName : Option String
  founders : List String
  openPositions : Option Nat
deriving Repr, DecidableEq

/-- `latestFundingRound` as assembled by the orchestrator (dates and investor
lists omitted: always empty or wall-clock values). -/
structure FundingRound where
  roundType : String
  amount : String
  source : String
deriving Repr, DecidableEq

/-- The CEO record. -/
structure CEORecord where
  name : String
deriving Repr, DecidableEq

/-- `CompanyEnrichmentData`, trimmed to the deterministic fields the claims
touch (narrative `aiInsights` and the keyword list are omitted; the nested
summaries keep the underlying component results). -/
structure CompanyEnrichmentData where
  name : String
  domain : String
  website : String
  description : String
  founded : Option Nat
  employeeCount : Option Nat
  engineeringCount : Option Nat
  headquarters : Headquarters
  totalFundingRaised : Option String
  openPositions : Option Nat
  linkedinUrl : Option String
  twitterUrl : Option String
  githubUrl : Option String
  latestFundingRound : Option FundingRound
  ceo : Option CEORecord
  founders : List String
  dataQuality : String
  sources : List String
  hiring : Option HiringData
  technographic : Option (List TechStack)
  mobileApps : Option MobileAppData
  githubActivity : Option GitHubData
deriving Repr, DecidableEq

/-- `EnrichmentResult` (without the wall-clock `processingTimeMs`). -/
structure EnrichmentResult where
  success : Bool
  data : Option CompanyEnrichmentData
  error : Option String
  confidence : Nat
deriving Repr, DecidableEq

/-- `CompanyEnrichmentInput`. -/
structure EnrichmentInput where
  domain : Option String
  companyName : Option String
  linkedinUrl : Option String
deriving Repr, DecidableEq

/-- The environment of one enrichment: what the network and the structuring
call would return.  `resolvedDomain` is the result of `findDomainFromName`;
`websiteText`/`websiteHTML` the `fetchWebsite` payload; `githubOrg` and
`githubData` the two GitHub fetcher calls; `jobProbes` the four settled
job-board probes; `server`/`poweredBy` the tech-detector HEAD probe headers;
`profileHtml` the fetched profile page of `scrapeCompanyPage` (`none` for a
failed or non-OK fetch); `searchCount` the parsed people-search result count
per keyword; `ai` the structuring call, whose `Except.error` is the one
uncaught exception class (its message string). -/
structure EnrichEnv where
  resolvedDomain : Option String
  websiteText : String
  websiteHTML : String
  crunchbase : String
  githubOrg : Option String
  githubData : Option GitHubData
  jobProbes : List (Option (List JobPosting))
  server : Option String
  poweredBy : Option String
  socialLinks : SocialLinks
  profileHtml : Option String
  searchCount : String → Nat
  ai : Except String AIObject

/-- Step 0: `if (!input.domain && input.companyName) input.domain = await
findDomainFromName(...)`. -/
def effDomain (env : EnrichEnv) (input : EnrichmentInput) : Option String :=
  if !trutS input.domain && trutS input.companyName then env.resolvedDomain
  else input.domain

/-- Website text; empty unless the domain is truthy (the fetch only runs
inside `if (input.domain)`, and a failed fetch yields empty strings). -/
def websiteContentOf (env : EnrichEnv) (input : EnrichmentInput) : String :=
  if trutS (effDomain env input) then env.websiteText else ""

/-- Raw website HTML, fetched under the same guard. -/
def websiteHTMLOf (env : EnrichEnv) (input : EnrichmentInput) : String :=
  if trutS (effDomain env input) then env.websiteHTML else ""

/-- `fetchLinkedInData` returns the empty string unconditionally (the
simulated scrape). -/
def fetchLinkedInData (_linkedinUrlOrName : String) : String := ""

/-- LinkedIn narrative content: fetched only when a LinkedIn URL or company
name is present. -/
def linkedinContentOf (_env : EnrichEnv) (input : EnrichmentInput) : String :=
  if trutS input.linkedinUrl || trutS input.companyName then
    fetchLinkedInData
      (if trutS input.linkedinUrl then input.linkedinUrl.getD ""
       else input.companyName.getD "")
  else ""

/-- Crunchbase page text: fetched when a company name or domain is present. -/
def crunchbaseDataOf (env : EnrichEnv) (input : EnrichmentInput) : String :=
  if trutS input.companyName || trutS (effDomain env input) then env.crunchbase
  else ""

/-- Step 2: GitHub data is fetched only when the domain is truthy and the
org lookup succeeded. -/
def githubDataOf (env : EnrichEnv) (input : EnrichmentInput) : Option GitHubData :=
  if trutS (effDomain env input) && trutS env.githubOrg then env.githubData
  else none

/-- Step 3: job scraping runs only when the domain is truthy. -/
def hiringDataOf (env : EnrichEnv) (input : EnrichmentInput) : Option HiringData :=
  if trutS (effDomain env input) then some (scrapeJobs env.jobProbes) else none

/-- `htmlForTech`: the raw website HTML, set inside `if (input.domain)`. -/
def htmlForTechOf (env : EnrichEnv) (input : EnrichmentInput) : String :=
  if trutS (effDomain env input) then websiteHTMLOf env input else ""

/-- Step 4: tech detection runs only on non-empty HTML. -/
def techStackOf (env : EnrichEnv) (input : EnrichmentInput) : Option TechnographicData :=
  if !(htmlForTechOf env input).isEmpty then
    some (detectTechStack (htmlForTechOf env input) env.server env.poweredBy)
  else none

/-- The hiring data after step 4's overwrite of `topSkillsHiring` with
`detectFromJobPostings` (which happens inside the tech-detection branch when
job listings exist). -/
def hiringFinalOf (env : EnrichEnv) (input : EnrichmentInput) : Option HiringData :=
  match hiringDataOf env input with
  | none => none
  | some h =>
    if !(htmlForTechOf env input).isEmpty && h.jobListings.length > 0 then
      some { h with topSkillsHiring :=
        detectFromJobPostings (h.jobListings.map (fun j => j.title ++ " " ++ j.description)) }
    else some h

/-- Step 4.5: mobile app detection needs non-empty HTML and a truthy domain. -/
def mobileAppDataOf (env : EnrichEnv) (input : EnrichmentInput) : Option MobileAppData :=
  if !(websiteHTMLOf env input).isEmpty && trutS (effDomain env input) then
    some (detectMobileApps (websiteHTMLOf env input) ((effDomain env input).getD ""))
  else none

/-- The numeric weight given to a headcount confidence tier when fusing
estimates (0.8 / 0.5 / 0.3 in the source). -/
def confWeight : ConfTier → ℚ
  | ConfTier.high => 4 / 5
  | ConfTier.medium => 1 / 2
  | ConfTier.low => 3 / 10

/-- Step 5.5, first half: the LinkedIn-style estimate from the profile page
and the keyword searches. -/
def headcountBaseOf (env : EnrichEnv) : HeadcountEstimate :=
  estimateEngineeringCount (maxSearchCount env.searchCount)
    (scrapeCompanyPage env.profileHtml)

/-- Step 5.5: the headcount estimate, fused with the job-posting and GitHub
estimates when both hiring data and GitHub data are present and at least two
estimates exist.  The combined floor is non-negative here (all values and
weights are), so storing its `toNat` matches the JavaScript assignment. -/
def headcountOf (env : EnrichEnv) (input : EnrichmentInput) : Option HeadcountEstimate :=
  if trutS input.companyName then
    let hd := headcountBaseOf env
    match hiringFinalOf env input, githubDataOf env input with
    | some h, some g =>
      let estimates : List (ℚ × ℚ) :=
        (if trutN hd.engineeringCount then
           [(((hd.engineeringCount.getD 0 : Nat) : ℚ), confWeight hd.confidence)]
         else []) ++
        (let je := estimateFromJobPostings h.departmentHiring.engineering
         if je > 0 then [(((je : Nat) : ℚ), 2 / 5)] else []) ++
        (let c := (g.recentActivity.map GitHubActivity.contributorsLast30Days).getD 0
         if c > 0 then [(((estimateFromGitHub c : Nat) : ℚ), 1 / 2)] else [])
      if estimates.length > 1 then
        some { hd with engineeringCount := some (combineEstimates estimates).toNat }
      else some hd
    | _, _ => some hd
  else none

/-- The `sources` array at the end of step 5.5, one entry per component that
contributed non-empty data, in push order. -/
def sourcesOf (env : EnrichEnv) (input : EnrichmentInput) : List String :=
  pickList
    [ (!(websiteContentOf env input).isEmpty, "company_website"),
      (!(linkedinContentOf env input).isEmpty, "linkedin"),
      (!(crunchbaseDataOf env input).isEmpty, "crunchbase"),
      ((githubDataOf env input).isSome, "github"),
      ((hiringDataOf env input).any (fun h => h.openPositions != 0), "job_boards"),
      ((techStackOf env input).any (fun t => t.allTechnologies.length != 0),
        "tech_detection"),
      ((mobileAppDataOf env input).any (fun m => m.allApps.length != 0),
        "mobile_app_detection"),
      ((headcountOf env input).any
        (fun hc => trutN hc.engineeringCount || trutN hc.totalEmployees),
        "linkedin_headcount") ]

/-- `dataQuality` from the source count. -/
def dataQualityOf (sources : List String) : String :=
  if sources.length ≥ 2 then "high"
  else if sources.length == 1 then "medium"
  else "low"

/-- The record assembly at the end of `extractWithAI`: deterministic fields
win over the structuring call's guesses where both exist. -/
def assembleData (env : EnrichEnv) (input : EnrichmentInput) (obj : AIObject) :
    CompanyEnrichmentData :=
  let sources := sourcesOf env input
  let hcOpt := headcountOf env input
  { name := obj.name
    domain := obj.domain
    website := "https://" ++ obj.domain
    description := obj.description
    founded := obj.founded
    employeeCount :=
      match hcOpt with
      | some hc => if trutN hc.totalEmployees then hc.totalEmployees else obj.employeeCount
      | none => obj.employeeCount
    engineeringCount := hcOpt.bind HeadcountEstimate.engineeringCount
    headquarters := obj.headquarters
    totalFundingRaised := obj.totalFundingRaised
    openPositions :=
      match hiringFinalOf env input with
      | some h => some h.openPositions
      | none => obj.openPositions
    linkedinUrl := env.socialLinks.linkedin
    twitterUrl := env.socialLinks.twitter
    githubUrl :=
      match githubDataOf env input with
      | some g => g.organization.map GitHubOrgInfo.url
      | none => env.socialLinks.github
    latestFundingRound :=
      if trutS obj.latestRoundType then
        some { roundType := obj.latestRoundType.getD ""
               amount :=
                 if trutS obj.latestRoundAmount then obj.latestRoundAmount.getD ""
                 else "Unknown"
               source := sources.headD "ai_extraction" }
      else none
    ceo := if trutS obj.ceoName then some { name := obj.ceoName.getD "" } else none
    founders := obj.founders
    dataQuality := dataQualityOf sources
    sources := sources
    hiring := (hiringFinalOf env input).map
      (fun h => { h with jobListings := h.jobListings.take 10 })
    technographic := (techStackOf env input).map
      (fun t => t.allTechnologies.take 30)
    mobileApps := mobileAppDataOf env input
    githubActivity := githubDataOf env input }

/-- `calculateConfidence` (lines 818-833 of the source): 20 points per
`sources` entry, field bonuses, capped at 100. -/
def calculateConfidence (data : CompanyEnrichmentData) (sources : List String) : Nat :=
  let score := sources.length * 20
  let score := score + (if trutN data.employeeCount then 10 else 0)
  let score := score + (if trutS data.totalFundingRaised then 10 else 0)
  let score := score + (if trutS data.headquarters.city then 5 else 0)
  let score := score + (if trutN data.founded then 5 else 0)
  let score := score + (if data.latestFundingRound.isSome then 10 else 0)
  let score := score + (if data.ceo.isSome then 5 else 0)
  min score 100

/-- The field-bonus sum of the documented confidence formula, written as the
spec states it (10 for an employee count, 10 for a funding figure, 5 for a
headquarters city, 5 for a founding year, 10 for a latest round, 5 for a
CEO). -/
def confidenceBonus (data : CompanyEnrichmentData) : Nat :=
  (if trutN data.employeeCount then 10 else 0) +
  (if trutS data.totalFundingRaised then 10 else 0) +
  (if trutS data.headquarters.city then 5 else 0) +
  (if trutN data.founded then 5 else 0) +
  (if data.latestFundingRound.isSome then 10 else 0) +
  (if data.ceo.isSome then 5 else 0)

/-- `enrichCompany`: the whole sequence sits in one `try`; the only throw
site reaching the outer catch is the structuring call, so an `ai` error
yields the failure record (message, no data, zero confidence) and success
yields the assembled record with its confidence score. -/
def enrichCompany (env : EnrichEnv) (input : EnrichmentInput) : EnrichmentResult :=
  match env.ai with
  | Except.error msg =>
    { success := false, data := none, error := some msg, confidence := 0 }
  | Except.ok obj =>
    let d := assembleData env input obj
    { success := true, data := some d, error := none
      confidence := calculateConfidence d (sourcesOf env input) }

/-- `enrichBatch`: `Promise.all(inputs.map(input => enrichCompany(input)))`,
with `envOf` giving each input its own environment. -/
def enrichBatch (envOf : EnrichmentInput → EnrichEnv)
    (inputs : List EnrichmentInput) : List EnrichmentResult :=
  inputs.map (fun i => enrichCompany (envOf i) i)

/-! ## Supporting lemmas -/

theorem pickList_sublist (ps : List (Bool × α)) :
    (pickList ps).Sublist (ps.map Prod.snd) := by
  induction ps with
  | nil => simp [pickList]
  | cons p ps ih =>
    simp only [pickList, List.foldr_cons, List.map_cons]
    by_cases h : p.1
    · simpa [h] using ih.cons₂ p.2
    · simp only [h, if_false, Bool.false_eq_true]
      exact ih.cons p.2

theorem mem_pickList {a : α} : ∀ {ps : List (Bool × α)},
    a ∈ pickList ps ↔ ∃ p, p ∈ ps ∧ p.1 = true ∧ p.2 = a := by
  intro ps
  induction ps with
  | nil => simp [pickList]
  | cons p ps ih =>
    by_cases h : p.1 <;>
      simp only [pickList, List.foldr_cons] at ih ⊢ <;>
      simp [h, ih, List.mem_cons, or_and_right] <;>
      aesop

/-- The score accumulation of `calculateConfidence` equals the documented
closed formula. -/
theorem calculateConfidence_eq (data : CompanyEnrichmentData) (sources : List String) :
    calculateConfidence data sources
      = min 100 (20 * sources.length + confidenceBonus data) := by
  simp only [calculateConfidence, confidenceBonus]
  rw [Nat.min_comm]
  congr 1
  generalize (if trutN data.employeeCount then 10 else 0) = b1
  generalize (if trutS data.totalFundingRaised then 10 else 0) = b2
  generalize (if trutS data.headquarters.city then 5 else 0) = b3
  generalize (if trutN data.founded then 5 else 0) = b4
  generalize (if data.latestFundingRound.isSome then 10 else 0) = b5
  generalize (if data.ceo.isSome then 5 else 0) = b6
  omega

/-- The pair list behind `sourcesOf` (the eight conditional pushes). -/
def sourcePairs (env : EnrichEnv) (input : EnrichmentInput) : List (Bool × String) :=
  [ (!(websiteContentOf env input).isEmpty, "company_website"),
    (!(linkedinContentOf env input).isEmpty, "linkedin"),
    (!(crunchbaseDataOf env input).isEmpty, "crunchbase"),
    ((githubDataOf env input).isSome, "github"),
    ((hiringDataOf env input).any (fun h => h.openPositions != 0), "job_boards"),
    ((techStackOf env input).any (fun t => t.allTechnologies.length != 0),
      "tech_detection"),
    ((mobileAppDataOf env input).any (fun m => m.allApps.length != 0),
      "mobile_app_detection"),
    ((headcountOf env input).any
      (fun hc => trutN hc.engineeringCount || trutN hc.totalEmployees),
      "linkedin_headcount") ]

theorem sourcesOf_eq_pick (env : EnrichEnv) (input : EnrichmentInput) :
    sourcesOf env input = pickList (sourcePairs env input) := rfl

/-- The eight source names are pairwise distinct, so the pushed list has no
duplicates. -/
theorem sourcesOf_nodup (env : EnrichEnv) (input : EnrichmentInput) :
    (sourcesOf env input).Nodup := by
  rw [sourcesOf_eq_pick]
  refine List.Nodup.sublist (pickList_sublist (sourcePairs env input)) ?_
  show (["company_website", "linkedin", "crunchbase", "github", "job_boards",
    "tech_detection", "mobile_app_detection", "linkedin_headcount"]).Nodup
  decide

/-! ## C1: the confidence formula -/

/-- C1.  For every successful enrichment, the returned confidence equals
`min(100, 20 per distinct sources entry + bonuses)` — 10 for a (non-zero)
employee count, 10 for a total-funding figure, 5 for a headquarters city,
5 for a founding year, 10 for a latest funding round, 5 for a CEO name, with
presence read as the code's truthiness test — and the result lies in
`[0, 100]` (the score is a `Nat`, so 0 is a lower bound by type). -/
theorem confidence_formula_spec (env : EnrichEnv) (input : EnrichmentInput)
    (d : CompanyEnrichmentData) (h : (enrichCompany env input).data = some d) :
    (enrichCompany env input).confidence
        = min 100 (20 * d.sources.toFinset.card + confidenceBonus d) ∧
      (enrichCompany env input).confidence ≤ 100 := by
  cases hai : env.ai with
  | error msg => simp [enrichCompany, hai] at h
  | ok obj =>
    simp only [enrichCompany, hai, Option.some.injEq] at h ⊢
    subst h
    have hsrc : (assembleData env input obj).sources = sourcesOf env input := rfl
    refine ⟨?_, ?_⟩
    · rw [calculateConfidence_eq, hsrc,
        List.toFinset_card_of_nodup (sourcesOf_nodup env input)]
    · rw [calculateConfidence_eq]
      exact Nat.min_le_left 100 _

/-- A minimal structuring-call result used by the concrete environments. -/
def aiObj0 : AIObject :=
  { name := "Example", domain := "example.com", description := "A company."
    founded := none, employeeCount := none
    headquarters := { city := none, state := none, country := none }
    totalFundingRaised := none, latestRoundType := none, latestRoundAmount := none
    ceoName := none, founders := [], openPositions := none }

/-- A concrete environment where every fetch came back empty. -/
def env0 : EnrichEnv :=
  { resolvedDomain := none, websiteText := "", websiteHTML := "", crunchbase := ""
    githubOrg := none, githubData := none, jobProbes := [none, none, none, none]
    server := none, poweredBy := none
    socialLinks := { twitter := none, linkedin := none, github := none }
    profileHtml := none, searchCount := fun _ => 0, ai := Except.ok aiObj0 }

/-- A domain-only input. -/
def input0 : EnrichmentInput :=
  { domain := some "example.com", companyName := none, linkedinUrl := none }

theorem confidence_formula_spec_witness :
    (enrichCompany env0 input0).data = some (assembleData env0 input0 aiObj0) ∧
    ((enrichCompany env0 input0).confidence
        = min 100 (20 * (assembleData env0 input0 aiObj0).sources.toFinset.card
            + confidenceBonus (assembleData env0 input0 aiObj0)) ∧
      (enrichCompany env0 input0).confidence ≤ 100) :=
  ⟨rfl, confidence_formula_spec env0 input0 _ rfl⟩

/-! ## C2: the headcount clamp -/

/-- C2 counterexample.  A scraped range of "0-0 employees" yields a known
total of 0 (the range branch has no positivity check), and with a
search-derived count of 1 the truthiness test `companyData.totalEmployees &&`
skips the clamp: the returned engineering estimate is 1, which exceeds the
known total 0 — so the claim as stated fails at this input. -/
theorem headcount_clamp_cex :
    parseEmployeeCount "0-0 employees" = some 0 ∧
    (estimateEngineeringCount 1 (some 0)).totalEmployees = some 0 ∧
    (estimateEngineeringCount 1 (some 0)).engineeringCount = some 1 ∧
    ¬(1 : Nat) ≤ 0 :=
  ⟨by decide, by decide, by decide, by decide⟩

/-- C2 amended.  For a known positive total `t`: any returned engineering
estimate is at most `t`; if the search-derived count `e` exceeds `t` the
computed value is `floor(0.4 * t)` (reported as absent when that floor is 0)
with confidence low; otherwise confidence is medium exactly when `e` exceeds
10, else low. -/
theorem headcount_clamp_amended (e t : Nat) (ht : 1 ≤ t) :
    (∀ v, (estimateEngineeringCount e (some t)).engineeringCount = some v → v ≤ t) ∧
    (t < e →
      (estimateEngineeringCount e (some t)).engineeringCount
          = (if (2 * t) / 5 = 0 then none else some ((2 * t) / 5)) ∧
        (estimateEngineeringCount e (some t)).confidence = ConfTier.low) ∧
    (e ≤ t →
      (estimateEngineeringCount e (some t)).confidence
        = (if 10 < e then ConfTier.medium else ConfTier.low)) := by
  have ht0 : t ≠ 0 := by omega
  refine ⟨?_, ?_, ?_⟩
  · intro v hv
    simp only [estimateEngineeringCount] at hv
    split_ifs at hv <;> simp_all <;> omega
  · intro hte
    constructor
    · simp only [estimateEngineeringCount]
      split_ifs <;> simp_all <;> omega
    · simp only [estimateEngineeringCount]
      split_ifs <;> simp_all
  · intro het
    simp only [estimateEngineeringCount]
    split_ifs <;> simp_all <;> omega

theorem headcount_clamp_amended_witness :
    (1 : Nat) ≤ 15 ∧ (15 : Nat) < 20 ∧
    ((estimateEngineeringCount 20 (some 15)).engineeringCount
        = (if (2 * 15) / 5 = 0 then none else some ((2 * 15) / 5)) ∧
      (estimateEngineeringCount 20 (some 15)).confidence = ConfTier.low) :=
  ⟨by decide, by decide, (headcount_clamp_amended 20 15 (by decide)).2.1 (by decide)⟩

/-! ## C3: range-midpoint parsing -/

/-- C3.  The code disagrees with the documented midpoint parse: the generic
`(\d+)\s+employees` patterns run first and match the upper bound of a range,
so "51-200 employees" parses as 200 (not 125) and a profile page reporting
"201-500 employees" yields a total of 500 and an engineering count of
`floor(500 * 0.35) = 175` (not 350 and 122).  The range-midpoint branch the
source comments describe ("Use midpoint", example "51-200 employees") is
unreachable for such pages. -/
theorem scrape_midpoint_code_bug :
    parseEmployeeCount "51-200 employees" = some 200 ∧
    parseEmployeeCount "51-200 employees" ≠ some 125 ∧
    scrapeCompanyPage (some "201-500 employees") = some 500 ∧
    estimateEngineeringCount 0 (scrapeCompanyPage (some "201-500 employees"))
      = { totalEmployees := some 500, engineeringCount := some 175,
          confidence := ConfTier.low, source := "linkedin_public_search" } :=
  ⟨by decide, by decide, by decide, by decide⟩

/-! ## C4: combineEstimates -/

theorem foldl_pairSum (l : List (ℚ × ℚ)) :
    ∀ a b : ℚ, l.foldl (fun acc e => (acc.1 + e.1 * e.2, acc.2 + e.2)) (a, b)
      = (a + (l.map (fun e => e.1 * e.2)).sum, b + (l.map Prod.snd).sum) := by
  induction l with
  | nil => intro a b; simp
  | cons e l ih =>
    intro a b
    simp only [List.foldl_cons, List.map_cons, List.sum_cons, ih]
    rw [Prod.mk.injEq]
    constructor <;> ring

/-- C4.  `combineEstimates` returns 0 on the empty list; on any non-empty
list with positive total confidence it returns the floor of the
confidence-weighted mean; a singleton with positive confidence yields
`floor(v)`; and the documented example returns 83. -/
theorem combineEstimates_spec :
    combineEstimates [] = 0 ∧
    (∀ es : List (ℚ × ℚ), es ≠ [] → 0 < (es.map Prod.snd).sum →
      combineEstimates es
        = ⌊(es.map (fun e => e.1 * e.2)).sum / (es.map Prod.snd).sum⌋) ∧
    (∀ v c : ℚ, 0 < c → combineEstimates [(v, c)] = ⌊v⌋) ∧
    combineEstimates [(100, 4 / 5), (50, 2 / 5)] = 83 := by
  refine ⟨rfl, ?_, ?_, ?_⟩
  · intro es hne _hpos
    have hlen : es.length ≠ 0 := by simpa [List.length_eq_zero] using hne
    simp only [combineEstimates, if_neg hlen, foldl_pairSum, zero_add]
  · intro v c hc
    have hlen : ([(v, c)] : List (ℚ × ℚ)).length ≠ 0 := by simp
    simp only [combineEstimates, if_neg hlen, List.foldl_cons, List.foldl_nil,
      zero_add]
    rw [mul_div_assoc, div_self (ne_of_gt hc), mul_one]
  · norm_num [combineEstimates]

theorem combineEstimates_spec_witness :
    (0 : ℚ) < 1 ∧ combineEstimates [((7 : ℚ), (1 : ℚ))] = ⌊(7 : ℚ)⌋ :=
  ⟨one_pos, combineEstimates_spec.2.2.1 7 1 one_pos⟩

/-! ## C5: batch enrichment -/

/-- C5.  Batch enrichment returns exactly one result per input, in input
order, and element `i` is a function of input `i` and its own environment
alone — so a structuring-call failure in one element makes only that
element's result `success := false` and leaves every sibling's result (the
value `enrichCompany` gives for its own input) unchanged. -/
theorem enrichBatch_spec (envOf : EnrichmentInput → EnrichEnv)
    (inputs : List EnrichmentInput) :
    (enrichBatch envOf inputs).length = inputs.length ∧
    (∀ i input, inputs.get? i = some input →
      (enrichBatch envOf inputs).get? i
        = some (enrichCompany (envOf input) input)) ∧
    (∀ i input msg, inputs.get? i = some input →
      (envOf input).ai = Except.error msg →
      ((enrichBatch envOf inputs).get? i).map EnrichmentResult.success
        = some false) := by
  refine ⟨by simp [enrichBatch], ?_, ?_⟩
  · intro i input hi
    have hi' : inputs[i]? = some input := by
      simpa [← List.get?_eq_getElem?] using hi
    simp [enrichBatch, List.get?_eq_getElem?, List.getElem?_map, hi']
  · intro i input msg hi hmsg
    have hi' : inputs[i]? = some input := by
      simpa [← List.get?_eq_getElem?] using hi
    simp [enrichBatch, List.get?_eq_getElem?, List.getElem?_map, hi',
      enrichCompany, hmsg]

/-- Distinct inputs for the batch scenario. -/
def inputA : EnrichmentInput :=
  { domain := some "a.com", companyName := none, linkedinUrl := none }

def inputB : EnrichmentInput :=
  { domain := some "b.com", companyName := none, linkedinUrl := none }

def inputC : EnrichmentInput :=
  { domain := some "c.com", companyName := none, linkedinUrl := none }

/-- Batch environment map: the second input's structuring call throws. -/
def envOfW : EnrichmentInput → EnrichEnv := fun i =>
  if i = inputB then { env0 with ai := Except.error "AI failure" } else env0

theorem enrichBatch_spec_witness :
    [inputA, inputB, inputC].get? 1 = some inputB ∧
    (envOfW inputB).ai = Except.error "AI failure" ∧
    (enrichBatch envOfW [inputA, inputB, inputC]).length = 3 ∧
    ((enrichBatch envOfW [inputA, inputB, inputC]).get? 1).map
      EnrichmentResult.success = some false ∧
    (enrichBatch envOfW [inputA, inputB, inputC]).get? 0
      = some (enrichCompany (envOfW inputA) inputA) ∧
    (enrichBatch envOfW [inputA, inputB, inputC]).get? 2
      = some (enrichCompany (envOfW inputC) inputC) :=
  ⟨rfl, by simp [envOfW],
   (enrichBatch_spec envOfW [inputA, inputB, inputC]).1,
   (enrichBatch_spec envOfW [inputA, inputB, inputC]).2.2 1 inputB "AI failure"
     rfl (by simp [envOfW]),
   (enrichBatch_spec envOfW [inputA, inputB, inputC]).2.1 0 inputA rfl,
   (enrichBatch_spec envOfW [inputA, inputB, inputC]).2.1 2 inputC rfl⟩

/-! ## C6: the success invariant -/

/-- C6.  A `success := true` result carries a populated record; a
`success := false` result carries none, reports confidence 0 and carries the
thrown exception's message (the structuring-call error, the one class that
reaches the outer catch). -/
theorem enrich_success_invariant (env : EnrichEnv) (input : EnrichmentInput) :
    ((enrichCompany env input).success = true →
      ((enrichCompany env input).data).isSome = true) ∧
    ((enrichCompany env input).success = false →
      (enrichCompany env input).data = none ∧
      (enrichCompany env input).confidence = 0 ∧
      ∃ msg, env.ai = Except.error msg ∧
        (enrichCompany env input).error = some msg) := by
  cases hai : env.ai <;> simp [enrichCompany, hai]

/-- A concrete failing environment. -/
def envF : EnrichEnv := { env0 with ai := Except.error "AI failure" }

theorem enrich_success_invariant_witness :
    (enrichCompany envF input0).success = false ∧
    (enrichCompany envF input0).data = none ∧
    (enrichCompany envF input0).confidence = 0 ∧
    (enrichCompany envF input0).error = some "AI failure" := by
  have h := (enrich_success_invariant envF input0).2 rfl
  exact ⟨rfl, h.1, h.2.1, rfl⟩

/-! ## C7: sources name only contributing components -/

theorem optionAny_iff {o : Option α} {p : α → Bool} :
    o.any p = true ↔ ∃ a, o = some a ∧ p a = true := by
  cases o <;> simp [Option.any]

/-- C7.  A component's name appears in `sources` only if that component
contributed non-empty data: website text non-empty for `company_website`,
fetched text non-empty for `linkedin` and `crunchbase`, fetched organization
data for `github`, open positions for `job_boards`, a detected technology
for `tech_detection`, a found app for `mobile_app_detection`, and a headcount
figure (engineering count or total) for `linkedin_headcount`. -/
theorem sources_only_contributors (env : EnrichEnv) (input : EnrichmentInput) :
    ("company_website" ∈ sourcesOf env input → websiteContentOf env input ≠ "") ∧
    ("linkedin" ∈ sourcesOf env input → linkedinContentOf env input ≠ "") ∧
    ("crunchbase" ∈ sourcesOf env input → crunchbaseDataOf env input ≠ "") ∧
    ("github" ∈ sourcesOf env input → (githubDataOf env input).isSome = true) ∧
    ("job_boards" ∈ sourcesOf env input →
      ∃ h, hiringDataOf env input = some h ∧ 0 < h.openPositions) ∧
    ("tech_detection" ∈ sourcesOf env input →
      ∃ t, techStackOf env input = some t ∧ t.allTechnologies ≠ []) ∧
    ("mobile_app_detection" ∈ sourcesOf env input →
      ∃ m, mobileAppDataOf env input = some m ∧ m.allApps ≠ []) ∧
    ("linkedin_headcount" ∈ sourcesOf env input →
      ∃ hc, headcountOf env input = some hc ∧
        (trutN hc.engineeringCount || trutN hc.totalEmployees) = true) := by
  have key : ∀ name : String, name ∈ sourcesOf env input →
      ∃ p, p ∈ sourcePairs env input ∧ p.1 = true ∧ p.2 = name := by
    intro name hmem
    rw [sourcesOf_eq_pick, mem_pickList] at hmem
    exact hmem
  refine ⟨?_, ?_, ?_, ?_, ?_, ?_, ?_, ?_⟩ <;> intro hmem <;>
    obtain ⟨p, hp, hcond, hname⟩ := key _ hmem <;>
    simp only [sourcePairs, List.mem_cons, List.not_mem_nil, or_false] at hp <;>
    (rcases hp with rfl | rfl | rfl | rfl | rfl | rfl | rfl | rfl <;>
      first
      | simp at hname
      | skip)
  · intro hcontra
    rw [hcontra] at hcond
    exact absurd hcond (by decide)
  · intro hcontra
    rw [hcontra] at hcond
    exact absurd hcond (by decide)
  · intro hcontra
    rw [hcontra] at hcond
    exact absurd hcond (by decide)
  · exact hcond
  · obtain ⟨a, ha, hpa⟩ := optionAny_iff.mp hcond
    exact ⟨a, ha, Nat.pos_of_ne_zero (by simpa using hpa)⟩
  · obtain ⟨a, ha, hpa⟩ := optionAny_iff.mp hcond
    refine ⟨a, ha, ?_⟩
    intro hnil
    rw [hnil] at hpa
    exact absurd hpa (by decide)
  · obtain ⟨a, ha, hpa⟩ := optionAny_iff.mp hcond
    refine ⟨a, ha, ?_⟩
    intro hnil
    rw [hnil] at hpa
    exact absurd hpa (by decide)
  · obtain ⟨a, ha, hpa⟩ := optionAny_iff.mp hcond
    exact ⟨a, ha, hpa⟩

/-- A concrete environment where the website fetch succeeded. -/
def env7 : EnrichEnv :=
  { env0 with websiteText := "hello", websiteHTML := "powered by react",
              crunchbase := "crunchbase page" }

theorem sources_only_contributors_witness :
    "company_website" ∈ sourcesOf env7 input0 ∧
    websiteContentOf env7 input0 ≠ "" ∧
    "tech_detection" ∈ sourcesOf env7 input0 ∧
    "job_boards" ∉ sourcesOf env7 input0 :=
  ⟨by decide, (sources_only_contributors env7 input0).1 (by decide),
   by decide, by decide⟩

/-! ## C8: per-vendor deduplication across detection methods -/

/-- A page whose script tag both places "react" in the HTML text and yields a
script source containing "react". -/
def reactHtml : String := "<script src=\"/react.js\"></script>"

/-- C8 counterexample.  The React signature combines the HTML-substring and
script-source tests in one disjunction, so an input matching both ways
produces one React entry, not the two the claim asserts. -/
theorem tech_two_entries_cex :
    strIncl reactHtml "react" = true ∧
    (extractScriptSources reactHtml).any (fun src => strIncl src "react") = true ∧
    (detectTechStack reactHtml none none).allTechnologies.countP
      (fun t => t.name == "React") = 1 ∧
    (detectTechStack reactHtml none none).allTechnologies.countP
      (fun t => t.name == "React") ≠ 2 :=
  ⟨by decide, by decide, by decide, by decide⟩

/-- The detected list is a sublist of the signature catalog's payloads. -/
theorem detected_sublist (html : String) (server poweredBy : Option String) :
    ((detectTechStack html server poweredBy).allTechnologies).Sublist
      ((techSignatures (fun sub => strIncl html sub)
        (fun sub => (extractScriptSources html).any (fun src => strIncl src sub))
        server poweredBy).map Prod.snd) :=
  pickList_sublist _

/-- C8 amended.  No deduplication is applied to the detected list, but each
vendor's HTML and script-source tests form a single disjunctive signature
producing at most one entry: an input matching React both ways yields exactly
one React entry, while a vendor named by two distinct signatures (Next.js via
its HTML markers and via the X-Powered-By header) yields two entries. -/
theorem tech_no_dedup_amended :
    (∀ html : String, ∀ server poweredBy : Option String,
      strIncl html "react" = true →
      (extractScriptSources html).any (fun src => strIncl src "react") = true →
      (detectTechStack html server poweredBy).allTechnologies.countP
        (fun t => t.name == "React") = 1) ∧
    (detectTechStack "next.js" none (some "Next.js")).allTechnologies.countP
      (fun t => t.name == "Next.js") = 2 := by
  constructor
  · intro html server poweredBy hh _hs
    have hle := (detected_sublist html server poweredBy).countP_le
      (fun t => t.name == "React")
    have hconst : ((techSignatures (fun sub => strIncl html sub)
          (fun sub => (extractScriptSources html).any (fun src => strIncl src sub))
          server poweredBy).map Prod.snd)
        = ((techSignatures (fun _ => true) (fun _ => true) none none).map Prod.snd) :=
      rfl
    rw [hconst] at hle
    have hcat : ((techSignatures (fun _ => true) (fun _ => true) none none).map
        Prod.snd).countP (fun t => t.name == "React") = 1 := by decide
    rw [hcat] at hle
    have hmem : (TechStack.mk "React" "Frontend Framework" 90)
        ∈ (detectTechStack html server poweredBy).allTechnologies := by
      rw [show (detectTechStack html server poweredBy).allTechnologies
          = pickList (techSignatures (fun sub => strIncl html sub)
            (fun sub => (extractScriptSources html).any (fun src => strIncl src sub))
            server poweredBy) from rfl, mem_pickList]
      refine ⟨(strIncl html "react" || strIncl html "_react" || strIncl html "React"
          || (extractScriptSources html).any (fun src => strIncl src "react"),
          TechStack.mk "React" "Frontend Framework" 90), ?_, ?_, rfl⟩
      · exact List.mem_cons_self _ _
      · simp [hh]
    have hpos : 0 < (detectTechStack html server poweredBy).allTechnologies.countP
        (fun t => t.name == "React") :=
      List.countP_pos.mpr ⟨_, hmem, by decide⟩
    omega
  · decide

theorem tech_no_dedup_amended_witness :
    strIncl reactHtml "react" = true ∧
    ((extractScriptSources reactHtml).any (fun src => strIncl src "react") = true ∧
      (detectTechStack reactHtml none none).allTechnologies.countP
        (fun t => t.name == "React") = 1) :=
  ⟨by decide, by decide,
    tech_no_dedup_amended.1 reactHtml none none (by decide) (by decide)⟩

/-! ## C9: top-skill extraction -/

theorem insertDesc_perm (x : String × Nat) (l : List (String × Nat)) :
    (insertDesc x l).Perm (x :: l) := by
  induction l with
  | nil => simp [insertDesc]
  | cons y ys ih =>
    by_cases h : x.2 < y.2
    · simp only [insertDesc, if_pos h]
      exact (ih.cons y).trans (List.Perm.swap x y ys)
    · simp [insertDesc, h]

theorem sortDescBySnd_perm (l : List (String × Nat)) :
    (sortDescBySnd l).Perm l := by
  induction l with
  | nil => simp [sortDescBySnd]
  | cons x xs ih =>
    simp only [sortDescBySnd, List.foldr_cons]
    exact (insertDesc_perm x _).trans (ih.cons x)

theorem insertDesc_pairwise (x : String × Nat) {l : List (String × Nat)}
    (h : l.Pairwise (fun a b => b.2 ≤ a.2)) :
    (insertDesc x l).Pairwise (fun a b => b.2 ≤ a.2) := by
  induction l with
  | nil => simp [insertDesc]
  | cons y ys ih =>
    rcases List.pairwise_cons.mp h with ⟨hy, hys⟩
    by_cases hlt : x.2 < y.2
    · simp only [insertDesc, if_pos hlt]
      refine List.pairwise_cons.mpr ⟨?_, ih hys⟩
      intro z hz
      have hz' : z ∈ x :: ys := (insertDesc_perm x ys).mem_iff.mp hz
      rcases List.mem_cons.mp hz' with rfl | hzys
      · exact le_of_lt hlt
      · exact hy z hzys
    · simp only [insertDesc, if_neg hlt]
      push_neg at hlt
      refine List.pairwise_cons.mpr ⟨?_, h⟩
      intro z hz
      rcases List.mem_cons.mp hz with rfl | hzys
      · exact hlt
      · exact le_trans (hy z hzys) hlt

theorem sortDescBySnd_pairwise (l : List (String × Nat)) :
    (sortDescBySnd l).Pairwise (fun a b => b.2 ≤ a.2) := by
  induction l with
  | nil => simp [sortDescBySnd]
  | cons x xs ih =>
    simp only [sortDescBySnd, List.foldr_cons]
    exact insertDesc_pairwise x ih

/-- Stability of the insertion: entries whose count differs from `x`'s keep
their relative order, and `x` lands in front of the equal-count block. -/
theorem insertDesc_filter (x : String × Nat) (l : List (String × Nat)) (c : Nat) :
    (insertDesc x l).filter (fun p => p.2 == c)
      = if x.2 == c then x :: l.filter (fun p => p.2 == c)
        else l.filter (fun p => p.2 == c) := by
  induction l with
  | nil =>
    by_cases hxc : (x.2 == c) = true <;> simp [insertDesc, List.filter, hxc]
  | cons y ys ih =>
    by_cases hlt : x.2 < y.2
    · have hyx : (y.2 == c) = true → (x.2 == c) = false := by
        intro hyc
        have h1 : y.2 = c := by simpa using hyc
        have h2 : x.2 ≠ c := by omega
        simpa using h2
      simp only [insertDesc, if_pos hlt, List.filter_cons, ih]
      by_cases hxc : (x.2 == c) = true <;> by_cases hyc : (y.2 == c) = true <;>
        simp_all
    · simp only [insertDesc, if_neg hlt, List.filter_cons]

theorem sortDescBySnd_filter (l : List (String × Nat)) (c : Nat) :
    (sortDescBySnd l).filter (fun p => p.2 == c)
      = l.filter (fun p => p.2 == c) := by
  induction l with
  | nil => rfl
  | cons x xs ih =>
    simp only [sortDescBySnd, List.foldr_cons] at ih ⊢
    rw [insertDesc_filter, List.filter_cons]
    by_cases hxc : (x.2 == c) = true <;> simp [hxc, ih]

/-- Tie postings: one mentioning only Vue, a later one mentioning only
React. -/
def jobVue : JobPosting :=
  { title := "Vue", department := "", location := "", remote := false, url := ""
    requiredSkills := [], description := "" }

def jobReact : JobPosting :=
  { title := "React", department := "", location := "", remote := false, url := ""
    requiredSkills := [], description := "" }

/-- C9 counterexample.  React precedes Vue in the catalog, both terms are
mentioned once, yet the output lists Vue first: the tally map is in
first-mention order (postings scanned in order) and the stable sort keeps
that order on ties, so ties are not broken by catalog order. -/
theorem skills_tiebreak_cex :
    techSkillsCatalog.indexOf "React" < techSkillsCatalog.indexOf "Vue" ∧
    tallySkills [jobVue, jobReact] = [("Vue", 1), ("React", 1)] ∧
    extractTopSkills [jobVue, jobReact] = ["Vue", "React"] ∧
    extractTopSkills [jobVue, jobReact] ≠ ["React", "Vue"] :=
  ⟨by decide, by decide, by decide, by decide⟩

/-- C9 amended.  `extractTopSkills` returns the first ten names of a
permutation of the mention tally that is sorted by count descending, with
ties kept in the tally's first-mention order (the count-`c` entries of the
sorted list equal those of the tally, in order); the tally itself lists
catalog terms in the order they were first mentioned, scanning postings in
order and the catalog in order within one posting. -/
theorem extractTopSkills_spec (jobs : List JobPosting) :
    extractTopSkills jobs
        = ((sortDescBySnd (tallySkills jobs)).take 10).map Prod.fst ∧
    (sortDescBySnd (tallySkills jobs)).Perm (tallySkills jobs) ∧
    (sortDescBySnd (tallySkills jobs)).Pairwise (fun a b => b.2 ≤ a.2) ∧
    ∀ c : Nat, (sortDescBySnd (tallySkills jobs)).filter (fun p => p.2 == c)
        = (tallySkills jobs).filter (fun p => p.2 == c) :=
  ⟨rfl, sortDescBySnd_perm _, sortDescBySnd_pairwise _,
   fun c => sortDescBySnd_filter _ c⟩

/-! ## C10: mobile app deduplication -/

/-- The deduplication key as the claim states it: the platform paired with
the app id when present (JavaScript-truthy), else the store URL. -/
def appKeyPair (app : MobileApp) : AppPlatform × String :=
  (app.platform, if trutS app.appId then app.appId.getD "" else app.appUrl)

/-- Cancelling the common `TAG ++ "-"` prefix of two key strings. -/
theorem append_tag_inj (t k m : String) (h : t ++ "-" ++ k = t ++ "-" ++ m) :
    k = m := by
  apply String.ext
  have h' := congrArg String.data h
  simp only [String.data_append] at h'
  simpa using h'

/-- The source's string key agrees with the claim's pair key: the string is
the platform tag and the id-or-url joined by a dash, and the two platform
tags differ already in their first character. -/
theorem appKeyStr_eq_iff (a b : MobileApp) :
    appKeyStr a = appKeyStr b ↔ appKeyPair a = appKeyPair b := by
  obtain ⟨pa, na, ia, ua, da⟩ := a
  obtain ⟨pb, nb, ib, ub, db⟩ := b
  constructor
  · intro h
    cases pa <;> cases pb <;> simp only [appKeyStr, platformTag] at h
    · exact congrArg (Prod.mk AppPlatform.ios) (append_tag_inj "ios" _ _ h)
    · exfalso
      have h' := congrArg String.data h
      simp [String.data_append] at h'
    · exfalso
      have h' := congrArg String.data h
      simp [String.data_append] at h'
    · exact congrArg (Prod.mk AppPlatform.android) (append_tag_inj "android" _ _ h)
  · intro h
    have h1 : pa = pb := congrArg Prod.fst h
    have h2 := congrArg Prod.snd h
    simp only [appKeyPair] at h2
    simp only [appKeyStr, h1, h2]

theorem dedupeGo_not_seen : ∀ (l : List MobileApp) (seen : List String)
    (b : MobileApp), b ∈ dedupeGo seen l → seen.contains (appKeyStr b) = false := by
  intro l
  induction l with
  | nil => intro seen b hb; simp [dedupeGo] at hb
  | cons a as ih =>
    intro seen b hb
    simp only [dedupeGo] at hb
    split at hb
    · exact ih seen b hb
    · rename_i hc
      rcases List.mem_cons.mp hb with rfl | hbrest
      · simpa using hc
      · have h := ih (appKeyStr a :: seen) b hbrest
        simp only [List.contains_cons, Bool.or_eq_false_iff] at h
        exact h.2

theorem dedupeGo_keys_nodup : ∀ (l : List MobileApp) (seen : List String),
    ((dedupeGo seen l).map appKeyStr).Nodup := by
  intro l
  induction l with
  | nil => intro seen; simp [dedupeGo]
  | cons a as ih =>
    intro seen
    simp only [dedupeGo]
    split
    · exact ih seen
    · simp only [List.map_cons, List.nodup_cons]
      refine ⟨?_, ih _⟩
      intro hmem
      obtain ⟨b, hb, hkey⟩ := List.mem_map.mp hmem
      have h := dedupeGo_not_seen as (appKeyStr a :: seen) b hb
      simp only [List.contains_cons, Bool.or_eq_false_iff] at h
      exact absurd hkey (by simpa using h.1)

theorem dedupeGo_sublist : ∀ (l : List MobileApp) (seen : List String),
    (dedupeGo seen l).Sublist l := by
  intro l
  induction l with
  | nil => intro seen; simp [dedupeGo]
  | cons a as ih =>
    intro seen
    simp only [dedupeGo]
    split
    · exact (ih seen).cons a
    · exact (ih _).cons₂ a

theorem dedupeGo_covers : ∀ (l : List MobileApp) (seen : List String)
    (a : MobileApp), a ∈ l → seen.contains (appKeyStr a) = false →
    ∃ b ∈ dedupeGo seen l, appKeyStr b = appKeyStr a := by
  intro l
  induction l with
  | nil => intro seen a ha _; simp at ha
  | cons x as ih =>
    intro seen a ha hns
    rcases List.mem_cons.mp ha with rfl | has
    · simp only [dedupeGo]
      rw [if_neg (by rw [hns]; exact Bool.false_ne_true)]
      exact ⟨a, List.mem_cons_self _ _, rfl⟩
    · by_cases hc : seen.contains (appKeyStr x) = true
      · simp only [dedupeGo, if_pos hc]
        exact ih seen a has hns
      · simp only [dedupeGo, if_neg hc]
        by_cases hkey : appKeyStr a = appKeyStr x
        · exact ⟨x, List.mem_cons_self _ _, hkey.symm⟩
        · obtain ⟨b, hb, hkb⟩ := ih (appKeyStr x :: seen) a has
            (by simp only [List.contains_cons, Bool.or_eq_false_iff]
                exact ⟨by simpa using hkey, hns⟩)
          exact ⟨b, List.mem_cons_of_mem _ hb, hkb⟩

theorem dedupeGo_first : ∀ (l : List MobileApp) (seen : List String)
    (b : MobileApp), b ∈ dedupeGo seen l →
    ∃ l1 l2, l = l1 ++ b :: l2 ∧ ∀ x ∈ l1, appKeyStr x ≠ appKeyStr b := by
  intro l
  induction l with
  | nil => intro seen b hb; simp [dedupeGo] at hb
  | cons a as ih =>
    intro seen b hb
    simp only [dedupeGo] at hb
    split at hb
    · rename_i hc
      obtain ⟨l1, l2, heq, hne⟩ := ih seen b hb
      refine ⟨a :: l1, l2, by rw [heq]; rfl, ?_⟩
      intro x hx
      rcases List.mem_cons.mp hx with rfl | hxl1
      · intro hcontra
        have hbs := dedupeGo_not_seen as seen b hb
        rw [hcontra] at hc
        rw [hc] at hbs
        cases hbs
      · exact hne x hxl1
    · rename_i hc
      rcases List.mem_cons.mp hb with rfl | hbrest
      · exact ⟨[], as, rfl, by simp⟩
      · obtain ⟨l1, l2, heq, hne⟩ := ih (appKeyStr a :: seen) b hbrest
        refine ⟨a :: l1, l2, by rw [heq]; rfl, ?_⟩
        intro x hx
        rcases List.mem_cons.mp hx with rfl | hxl1
        · have hbs := dedupeGo_not_seen as (appKeyStr x :: seen) b hbrest
          simp only [List.contains_cons, Bool.or_eq_false_iff] at hbs
          intro hcontra
          exact absurd hcontra.symm (by simpa using hbs.1)
        · exact hne x hxl1

/-- Transfer of key distinctness from the string key to the pair key. -/
theorem nodup_pairKeys_of_strKeys {l : List MobileApp}
    (h : (l.map appKeyStr).Nodup) : (l.map appKeyPair).Nodup := by
  induction l with
  | nil => simp
  | cons a as ih =>
    simp only [List.map_cons, List.nodup_cons] at h ⊢
    refine ⟨?_, ih h.2⟩
    intro hmem
    obtain ⟨b, hb, hkey⟩ := List.mem_map.mp hmem
    exact h.1 (List.mem_map.mpr ⟨b, hb, (appKeyStr_eq_iff b a).mpr hkey⟩)

/-- C10.  Merging the five passes is deduplicated by the key
`(platform, appId if present else appUrl)`: the returned `allApps` carry
pairwise distinct keys, every pass result's key is represented, each kept
entry is the first occurrence of its key in the concatenated passes, the two
platform buckets are the platform filters of `allApps` (so they partition
it), and each flag holds exactly when its bucket is non-empty. -/
theorem mobile_dedup_spec (html domain : String) :
    ((detectMobileApps html domain).allApps.map appKeyPair).Nodup ∧
    (∀ a ∈ allPassApps html domain,
      ∃ b ∈ (detectMobileApps html domain).allApps, appKeyPair b = appKeyPair a) ∧
    (∀ b ∈ (detectMobileApps html domain).allApps,
      ∃ l1 l2, allPassApps html domain = l1 ++ b :: l2 ∧
        ∀ x ∈ l1, appKeyPair x ≠ appKeyPair b) ∧
    (detectMobileApps html domain).iosApps
        = (detectMobileApps html domain).allApps.filter
            (fun a => a.platform == AppPlatform.ios) ∧
    (detectMobileApps html domain).androidApps
        = (detectMobileApps html domain).allApps.filter
            (fun a => a.platform == AppPlatform.android) ∧
    ((detectMobileApps html domain).iosApps
        ++ (detectMobileApps html domain).androidApps).Perm
      (detectMobileApps html domain).allApps ∧
    ((detectMobileApps html domain).hasIosApp = true ↔
      (detectMobileApps html domain).iosApps ≠ []) ∧
    ((detectMobileApps html domain).hasAndroidApp = true ↔
      (detectMobileApps html domain).androidApps ≠ []) := by
  refine ⟨?_, ?_, ?_, rfl, rfl, ?_, ?_, ?_⟩
  · exact nodup_pairKeys_of_strKeys (dedupeGo_keys_nodup (allPassApps html domain) [])
  · intro a ha
    obtain ⟨b, hb, hkey⟩ :=
      dedupeGo_covers (allPassApps html domain) [] a ha (by simp)
    exact ⟨b, hb, (appKeyStr_eq_iff b a).mp hkey⟩
  · intro b hb
    obtain ⟨l1, l2, heq, hne⟩ := dedupeGo_first (allPassApps html domain) [] b hb
    exact ⟨l1, l2, heq,
      fun x hx hcontra => hne x hx ((appKeyStr_eq_iff x b).mpr hcontra)⟩
  · have hand : (detectMobileApps html domain).allApps.filter
        (fun a => a.platform == AppPlatform.android)
        = (detectMobileApps html domain).allApps.filter
            (fun a => !(a.platform == AppPlatform.ios)) := by
      apply List.filter_congr
      intro a _
      cases ha : a.platform <;> simp
    show ((detectMobileApps html domain).allApps.filter
        (fun a => a.platform == AppPlatform.ios)
      ++ (detectMobileApps html domain).allApps.filter
        (fun a => a.platform == AppPlatform.android)).Perm
      (detectMobileApps html domain).allApps
    rw [hand]
    exact List.filter_append_perm _ _
  · have hios : (detectMobileApps html domain).hasIosApp
        = decide (0 < (detectMobileApps html domain).iosApps.length) := rfl
    rw [hios]
    simp [List.length_pos]
  · have hand : (detectMobileApps html domain).hasAndroidApp
        = decide (0 < (detectMobileApps html domain).androidApps.length) := rfl
    rw [hand]
    simp [List.length_pos]

/-- A page exposing the same iOS app both as an App Store link and through a
smart banner. -/
def dupHtml : String :=
  "<a href=\"https://apps.apple.com/us/app/foo/id123\"></a><meta name=\"apple-itunes-app\" content=\"app-id=123\">"

theorem mobile_dedup_spec_witness :
    (allPassApps dupHtml "example.com").length = 2 ∧
    (detectMobileApps dupHtml "example.com").allApps.length = 1 ∧
    ((detectMobileApps dupHtml "example.com").allApps.map appKeyPair).Nodup ∧
    (detectMobileApps dupHtml "example.com").iosApps ≠ [] ∧
    (detectMobileApps dupHtml "example.com").hasIosApp = true := by
  obtain ⟨h1, _h2, _h3, _h4, _h5, _h6, h7, _h8⟩ :=
    mobile_dedup_spec dupHtml "example.com"
  exact ⟨by decide, by decide, h1, by decide, h7.mpr (by decide)⟩
